import Mathlib

/-!
Verification of the MARO rollout coordination and experience-collection layer.

The definitions below are a shallow embedding of
`maro/rl/learning/env_sampler.py` (the `EnvSampler` class) and
`maro/rl/learning/rollout_manager.py` (the `SimpleRolloutManager` and
`DistributedRolloutManager` classes).  Opaque payloads (per-agent state
vectors, actions, environment actions, policy rollout info) are coded as
`Nat`; simulation ticks, policy versions and step budgets are Python
integers and are coded as `Int`.  External collaborators (the simulation
engine, the policies behind the agent wrapper, the message transport) are
modelled as explicit oracle functions or as input message streams.
-/

namespace Maro

/-- The user bookkeeping mapping `self.tracker`; modelled as an association
list of opaque entries. -/
abbrev Tracker := List (Nat × Nat)

/-- A pending transition record, the tuple
`(state, action[agent], env_actions, self.env.tick)` appended to
`self._transition_cache[agent]` in `EnvSampler.sample`. -/
structure TransitionRecord where
  state : Nat
  action : Nat
  envActions : Nat
  tick : Int
deriving DecidableEq, Repr

/-- The value passed as `next_state` to `record_transition`: either the
state stored in the new front record of the queue (`cache[0][0]`) or, when
the queue emptied, the whole latest pending environment state
`self._state` (which is `None` when the episode is terminal). -/
inductive NextStateVal where
  | fromRecord (s : Nat)
  | fromEnv (st : Option (List (Nat × Nat)))
deriving DecidableEq, Repr

/-- A completed transition as passed to
`agent_wrapper.record_transition(agent, state, action, reward[agent],
next_state, terminal)`. -/
structure CompletedTransition where
  state : Nat
  action : Nat
  reward : Int
  next : NextStateVal
  terminal : Bool
deriving DecidableEq, Repr

/-- The guard of the flush loop at env_sampler.py line 270:
`self._terminal or self.env.tick - cache[0][-1] >= self.reward_eval_delay`. -/
def flushCond (terminal : Bool) (now delay tick : Int) : Bool :=
  terminal || decide (now - tick ≥ delay)

/-- The `next_state` argument built at env_sampler.py line 278:
`cache[0][0] if cache else self._state`, where the list argument is the
queue left after the pop. -/
def nextStateAfter (pendingState : Option (List (Nat × Nat))) :
    List TransitionRecord → NextStateVal
  | [] => NextStateVal.fromEnv pendingState
  | r :: _ => NextStateVal.fromRecord r.state

/-- Signature of the optional `post_step` callback: it receives the tracker
and the popped record data `(state, action, env_actions, reward, tick)` and
returns the updated tracker (the Python callback mutates the tracker in
place). -/
abbrev PostStepFn := Tracker → Nat → Nat → Nat → Int → Int → Tracker

/-- Result of flushing one agent's pending queue. -/
structure FlushResult where
  completed : List CompletedTransition
  remaining : List TransitionRecord
  tracker : Tracker
deriving DecidableEq, Repr

/-- One agent's flush loop, env_sampler.py lines 270-280:
`while cache and (self._terminal or self.env.tick - cache[0][-1] >=
self.reward_eval_delay)`: pop the front record, compute its reward with
`self._get_reward`, optionally run `self._post_step`, and record a
completed transition whose next-state is `cache[0][0] if cache else
self._state` and whose terminal flag is `not cache and self._terminal`. -/
def flushAgent (terminal : Bool) (now delay : Int) (gr : Nat → Int → Int)
    (postStep : Option PostStepFn) (pendingState : Option (List (Nat × Nat))) :
    List TransitionRecord → Tracker → FlushResult
  | [], tr => ⟨[], [], tr⟩
  | r :: rest, tr =>
    if flushCond terminal now delay r.tick then
      let reward := gr r.envActions r.tick
      let tr1 := match postStep with
        | some f => f tr r.state r.action r.envActions reward r.tick
        | none => tr
      let res := flushAgent terminal now delay gr postStep pendingState rest tr1
      ⟨⟨r.state, r.action, reward, nextStateAfter pendingState rest,
        rest.isEmpty && terminal⟩ :: res.completed, res.remaining, res.tracker⟩
    else ⟨[], r :: rest, tr⟩

/-- External collaborators of `EnvSampler`, as oracle functions.  The
simulation environments are deterministic transition systems on a `Nat`
internal state; `step e a` returns the next internal state, the decision
event, and the terminal flag (Python: `_, event, terminal = env.step(a)`,
with the metrics component discarded).  `act agent state` is the action
the agent wrapper's `choose_action` dictionary assigns to `agent` (the
dictionary is keyed by exactly the agents present in `state_by_agent`, so
a per-agent function is an equivalent encoding).  `getReward ea t agent`
is the `agent` entry of the reward dictionary
`self._get_reward(self.env, env_actions, tick)`. -/
structure Oracles where
  resetLearn : Nat
  resetTest : Nat
  step : Nat → Option Nat → Nat × Nat × Bool
  tick : Nat → Int
  getState : Nat → Nat → List (Nat × Nat)
  act : Nat → Nat → Nat
  getEnvActions : Nat → List (Nat × Nat) → Nat → Nat
  getReward : Nat → Int → Nat → Int
  postStep : Option PostStepFn

/-- The mutable fields of an `EnvSampler` instance set up in
`EnvSampler.__init__` (env_sampler.py lines 207-229), with each
environment object represented by its internal oracle state. -/
structure SamplerState where
  learnEnv : Nat
  testEnv : Nat
  state : Option (List (Nat × Nat))
  event : Option Nat
  stepIndex : Nat
  terminal : Bool
  cache : List (Nat × List TransitionRecord)
  tracker : Tracker
deriving DecidableEq, Repr

/-- The state of a freshly constructed `EnvSampler`: `self._state = None`,
`self._event = None`, `self._step_index = 0`, `self._terminal = True`, an
empty transition cache and an empty tracker. -/
def initSampler (o : Oracles) : SamplerState :=
  { learnEnv := o.resetLearn, testEnv := o.resetTest, state := none,
    event := none, stepIndex := 0, terminal := true, cache := [], tracker := [] }

/-- `self._transition_cache[agent].append(record)` on the insertion-ordered
association list representing the `defaultdict(deque)`. -/
def cacheAppend (cache : List (Nat × List TransitionRecord)) (agent : Nat)
    (r : TransitionRecord) : List (Nat × List TransitionRecord) :=
  match cache with
  | [] => [(agent, [r])]
  | (a, q) :: rest =>
    if a = agent then (a, q ++ [r]) :: rest else (a, q) :: cacheAppend rest agent r

/-- The per-step record insertion, env_sampler.py lines 258-259:
`for agent, state in self._state.items():
self._transition_cache[agent].append((state, action[agent], env_actions,
self.env.tick))`. -/
def appendRecords (cache : List (Nat × List TransitionRecord))
    (stateMap : List (Nat × Nat)) (act : Nat → Nat → Nat) (envActions : Nat)
    (tick : Int) : List (Nat × List TransitionRecord) :=
  stateMap.foldl (fun c p => cacheAppend c p.1 ⟨p.2, act p.1 p.2, envActions, tick⟩) cache

/-- `steps_to_go > 0`, with `none` standing for `float("inf")` (the
`num_steps == -1` case). -/
def budgetPos : Option Int → Bool
  | none => true
  | some k => decide (0 < k)

/-- The sampling loop of `EnvSampler.sample`, env_sampler.py lines 255-263:
`while not self._terminal and steps_to_go > 0`: choose actions, derive
environment actions, append a transition record per agent, advance the
simulation, recompute the state (`None` when terminal), bump the step
index, decrement the budget.  `fuel` bounds the number of iterations;
`none` means the loop did not finish within the fuel (or `self._state` was
unexpectedly absent). -/
def sampleLoop (o : Oracles) : Nat → Option Int → SamplerState → Option SamplerState
  | 0, budget, s => if s.terminal || !budgetPos budget then some s else none
  | f + 1, budget, s =>
    if s.terminal || !budgetPos budget then some s
    else do
      let st ← s.state
      let ev ← s.event
      let actionMap := st.map (fun p => (p.1, o.act p.1 p.2))
      let envActions := o.getEnvActions s.learnEnv actionMap ev
      let cache1 := appendRecords s.cache st o.act envActions (o.tick s.learnEnv)
      let (env1, ev1, term1) := o.step s.learnEnv (some envActions)
      let state1 := if term1 then none else some (o.getState env1 ev1)
      sampleLoop o f (budget.map (fun k => k - 1))
        { s with learnEnv := env1, event := some ev1, terminal := term1,
                 state := state1, stepIndex := s.stepIndex + 1, cache := cache1 }

/-- The flush phase of `EnvSampler.sample`, env_sampler.py lines 269-280:
`for agent, cache in self._transition_cache.items()`, running the per-agent
flush loop and threading the tracker through; a flushed deque stays in the
dictionary as an empty deque.  Returns the updated cache and tracker plus
the stream of `(agent, completed transition)` pairs passed to
`record_transition`, in emission order. -/
def flushAll (o : Oracles) (terminal : Bool) (now : Int) (delay : Int)
    (pendingState : Option (List (Nat × Nat))) :
    List (Nat × List TransitionRecord) → Tracker →
      List (Nat × List TransitionRecord) × Tracker × List (Nat × CompletedTransition)
  | [], tr => ([], tr, [])
  | (agent, q) :: rest, tr =>
    let res := flushAgent terminal now delay (fun ea t => o.getReward ea t agent)
      o.postStep pendingState q tr
    let tail := flushAll o terminal now delay pendingState rest res.tracker
    ((agent, res.remaining) :: tail.1, tail.2.1,
      (res.completed.map (fun c => (agent, c))) ++ tail.2.2)

/-- The value returned by `EnvSampler.sample` (env_sampler.py lines
282-288), with the externally gathered `rollout_info` and
`exploration_params` replaced by the stream of transitions recorded to the
policies during the flush phase. -/
structure SampleResult where
  stepRange : Nat × Nat
  tracker : Tracker
  endOfEpisode : Bool
  recorded : List (Nat × CompletedTransition)
deriving DecidableEq, Repr

/-- `EnvSampler.sample` (env_sampler.py lines 231-288), with `delay` the
configured `self.reward_eval_delay`.  The policy-state
push, `explore()` and `exploration_step()` calls act only on the external
policies and leave the sampler fields untouched, so they do not appear in
the state transition.  If the episode ended on the previous call, the
learn environment is reset, the step index, transition cache and tracker
are cleared, and the first decision event and state are obtained.  Returns
`none` when the sampling loop exceeds `fuel`. -/
def sample (o : Oracles) (delay : Int) (numSteps : Int) (fuel : Nat) (s0 : SamplerState) :
    Option (SamplerState × SampleResult) := do
  let s1 : SamplerState :=
    if s0.terminal then
      let (e1, ev, _) := o.step o.resetLearn none
      { s0 with learnEnv := e1, stepIndex := 0, cache := [], tracker := [],
                terminal := false, event := some ev,
                state := some (o.getState e1 ev) }
    else s0
  let startingStepIndex := s1.stepIndex + 1
  let budget : Option Int := if numSteps = -1 then none else some numSteps
  let s2 ← sampleLoop o fuel budget s1
  let (cache3, tracker3, recorded) :=
    flushAll o s2.terminal (o.tick s2.learnEnv) delay s2.state s2.cache s2.tracker
  let s3 := { s2 with cache := cache3, tracker := tracker3 }
  some (s3, ⟨(startingStepIndex, s3.stepIndex), s3.tracker, s3.terminal, recorded⟩)

/-- The evaluation loop of `EnvSampler.test`, env_sampler.py lines 304-309:
`while not terminal`: choose actions, derive environment actions, step the
test environment, recompute the local state unless terminal.  All loop
variables (`terminal`, `event`, `state`) are Python locals of `test`; the
loop writes no sampler field.  Returns the final test environment state,
or `none` when the loop exceeds `fuel`. -/
def testLoop (o : Oracles) : Nat → Nat → Nat → List (Nat × Nat) → Option Nat
  | 0, _, _, _ => none
  | f + 1, env, ev, st =>
    let actionMap := st.map (fun p => (p.1, o.act p.1 p.2))
    let envActions := o.getEnvActions env actionMap ev
    let (env1, ev1, term1) := o.step env (some envActions)
    if term1 then some env1
    else testLoop o f env1 ev1 (o.getState env1 ev1)

/-- `EnvSampler.test` (env_sampler.py lines 290-311): select the test
environment, push policy states and force exploitation mode (both act only
on the external policies), reset the test environment, run the evaluation
loop to termination, and return `self.tracker`.  Returns `none` when the
loop exceeds `fuel`. -/
def test (o : Oracles) (fuel : Nat) (s : SamplerState) :
    Option (SamplerState × Tracker) :=
  match testLoop o fuel (o.step o.resetTest none).1 (o.step o.resetTest none).2.1
      (o.getState (o.step o.resetTest none).1 (o.step o.resetTest none).2.1) with
  | none => none
  | some efinal => some ({ s with testEnv := efinal }, s.tracker)

/-- Message tags relevant to the rollout manager (`MsgTag.SAMPLE_DONE`,
`MsgTag.TEST_DONE`); every other tag is coded as `other`. -/
inductive MsgTagT where
  | sampleDone
  | testDone
  | other
deriving DecidableEq, Repr

/-- A worker reply as read by `DistributedRolloutManager` (the fields
`msg["type"]`, `msg["version"]`, `msg["episode"]`, `msg["segment"]`,
`msg["rollout_info"]`, `msg["tracker"]`, `msg["end_of_episode"]`).  The
`rollout_info` dictionary is an association list from policy id to opaque
experience payload; the empty list models the empty (hence falsy)
dictionary. -/
structure WorkerReply where
  tag : MsgTagT
  version : Int
  episode : Int
  segment : Int
  rolloutInfo : List (Nat × Nat)
  tracker : Tracker
  endOfEpisode : Bool
deriving DecidableEq, Repr

/-- The aggregation buffers of `DistributedRolloutManager.collect`
(`info_list_by_policy`, `trackers`, `num_finishes`) together with the
manager field `self.episode_complete`. -/
structure CollectAcc where
  infoByPolicy : List (Nat × List Nat)
  trackers : List Tracker
  numFinishes : Nat
  episodeComplete : Bool
deriving DecidableEq, Repr

/-- `info_list_by_policy[policy_name].append(info)` on the
insertion-ordered association list representing the `defaultdict(list)`. -/
def infoAppend (acc : List (Nat × List Nat)) (policy : Nat) (info : Nat) :
    List (Nat × List Nat) :=
  match acc with
  | [] => [(policy, [info])]
  | (p, l) :: rest =>
    if p = policy then (p, l ++ [info]) :: rest else (p, l) :: infoAppend rest policy info

/-- `for policy_name, info in info_by_policy.items():
info_list_by_policy[policy_name].append(info)`. -/
def mergeInfo (acc : List (Nat × List Nat)) (info : List (Nat × Nat)) :
    List (Nat × List Nat) :=
  info.foldl (fun a p => infoAppend a p.1 p.2) acc

/-- `DistributedRolloutManager._handle_worker_result` (rollout_manager.py
lines 406-426): discard the reply unless its tag is `SAMPLE_DONE`, its
version lags by at most `max_lag`, and its episode and segment match the
current request; on a match, overwrite `self.episode_complete` with the
reply's `end_of_episode` flag and return the reply's rollout info and
tracker. -/
def handleWorkerResult (maxLag : Int) (ep segment version : Int)
    (episodeComplete : Bool) (msg : WorkerReply) :
    Option (List (Nat × Nat) × Tracker) × Bool :=
  if msg.tag ≠ MsgTagT.sampleDone then (none, episodeComplete)
  else if version - msg.version > maxLag then (none, episodeComplete)
  else if msg.episode = ep ∧ msg.segment = segment then
    (some (msg.rolloutInfo, msg.tracker), msg.endOfEpisode)
  else (none, episodeComplete)

/-- Processing of one received reply inside `DistributedRolloutManager.collect`
(rollout_manager.py lines 373-378 and 389-394): run
`_handle_worker_result`; then `if info_by_policy:` — which in Python is
false both for `None` and for an empty dictionary — bump `num_finishes`,
merge the rollout info and append the tracker. -/
def collectStep (maxLag : Int) (ep segment version : Int) (acc : CollectAcc)
    (msg : WorkerReply) : CollectAcc :=
  let h := handleWorkerResult maxLag ep segment version acc.episodeComplete msg
  match h.1 with
  | some (info, tr) =>
    if info.isEmpty then { acc with episodeComplete := h.2 }
    else
      { infoByPolicy := mergeInfo acc.infoByPolicy info,
        trackers := acc.trackers ++ [tr],
        numFinishes := acc.numFinishes + 1,
        episodeComplete := h.2 }
  | none => { acc with episodeComplete := h.2 }

/-- The quorum phase of `DistributedRolloutManager.collect`
(rollout_manager.py lines 371-380): `while True`: receive a reply with no
timeout, process it, and break once `num_finishes` equals
`min_finished_workers`.  The stream lists the replies the blocking
`receive` will deliver, in order; `none` models the coordinator blocking
forever because the stream is exhausted before the quorum is reached. -/
def quorumPhase (maxLag : Int) (ep segment version : Int) (minFinished : Nat) :
    List WorkerReply → CollectAcc → Option (CollectAcc × List WorkerReply)
  | [], _ => none
  | m :: rest, acc =>
    let acc1 := collectStep maxLag ep segment version acc m
    if acc1.numFinishes = minFinished then some (acc1, rest)
    else quorumPhase maxLag ep segment version minFinished rest acc1

/-- The extra-receive phase of `DistributedRolloutManager.collect`
(rollout_manager.py lines 383-396): `for i in range(max_extra_recv_tries)`:
receive with `extra_recv_timeout`; a timed-out attempt (`events k = none`)
is only logged; a delivered reply is processed and the loop breaks early
once `num_finishes` equals `num_workers`.  `events k` is the outcome of
the `k`-th timed receive; the result pairs the final accumulator with the
number of receive attempts performed. -/
def extraPhase (maxLag : Int) (ep segment version : Int) (numWorkers : Nat)
    (events : Nat → Option WorkerReply) :
    Nat → Nat → CollectAcc → CollectAcc × Nat
  | 0, used, acc => (acc, used)
  | t + 1, used, acc =>
    match events used with
    | none => extraPhase maxLag ep segment version numWorkers events t (used + 1) acc
    | some m =>
      let acc1 := collectStep maxLag ep segment version acc m
      if acc1.numFinishes = numWorkers then (acc1, used + 1)
      else extraPhase maxLag ep segment version numWorkers events t (used + 1) acc1

/-- The mutable flags of a rollout manager instance:
`self.episode_complete` (from `AbsRolloutManager.__init__`) and
`self._exploration_step`. -/
structure MgrState where
  explorationStep : Bool
  episodeComplete : Bool
deriving DecidableEq, Repr

/-- `AbsRolloutManager.reset` (rollout_manager.py lines 67-68):
`self.episode_complete = False`. -/
def mgrReset (s : MgrState) : MgrState :=
  { s with episodeComplete := false }

/-- `DistributedRolloutManager.collect` (rollout_manager.py lines 338-404):
broadcast the sample request carrying `self._exploration_step` to every
worker, clear the flag if it was set, run the quorum phase on the blocking
receive stream and then the extra-receive phase, and finally set
`self._exploration_step` when `self.episode_complete` ended up true.
Returns `none` when the quorum phase blocks forever; otherwise the new
manager state, the final accumulator, the exploration-step flag that was
sent with the requests, and the number of extra receive attempts. -/
def distCollect (maxLag : Int) (ep segment version : Int)
    (minFinished maxExtraTries numWorkers : Nat)
    (s : MgrState) (stream : List WorkerReply)
    (events : Nat → Option WorkerReply) :
    Option (MgrState × CollectAcc × Bool × Nat) :=
  let sent := s.explorationStep
  let es1 := if s.explorationStep then false else s.explorationStep
  let acc0 : CollectAcc := ⟨[], [], 0, s.episodeComplete⟩
  match quorumPhase maxLag ep segment version minFinished stream acc0 with
  | none => none
  | some (acc1, _) =>
    let r := extraPhase maxLag ep segment version numWorkers events maxExtraTries 0 acc1
    let es2 := if r.1.episodeComplete then true else es1
    some (⟨es2, r.1.episodeComplete⟩, r.1, sent, r.2)

/-- A result received by `SimpleRolloutManager.collect` from a local
sampler or worker process (fields `result["rollout_info"]`,
`result["tracker"]`, and the end-of-episode flag — read as
`result["end_of_episode"]` in the single-sampler branch and as
`result["episode_end"]` in the multi-process branch; the producing
`EnvironmentSampler` module is external to this repository, so the flag is
modelled as a single field). -/
structure LocalResult where
  rolloutInfo : List (Nat × Nat)
  tracker : Tracker
  episodeEnd : Bool
deriving DecidableEq, Repr

/-- The `parallelism == 1` branch of `SimpleRolloutManager.collect`
(rollout_manager.py lines 183-196 and 219-220): call
`env_sampler.sample(..., exploration_step=self._exploration_step)` —
without ever clearing `self._exploration_step` — then merge the single
result, overwrite `self.episode_complete` with its end-of-episode flag,
and set `self._exploration_step` if `self.episode_complete`.  Returns the
new manager state, the merged info, the trackers, and the
exploration-step flag passed to the sampler. -/
def simpleCollectSingle (s : MgrState) (result : LocalResult) :
    MgrState × List (Nat × List Nat) × List Tracker × Bool :=
  let sent := s.explorationStep
  let epc := result.episodeEnd
  let es2 := if epc then true else s.explorationStep
  (⟨es2, epc⟩, mergeInfo [] result.rolloutInfo, [result.tracker], sent)

/-- The `parallelism > 1` branch of `SimpleRolloutManager.collect`
(rollout_manager.py lines 198-220): send one sample request carrying
`self._exploration_step` to every worker, clear the flag if it was set,
then receive one result per worker in pool order, merging each result's
rollout info, appending its tracker, and overwriting
`self.episode_complete` with each result's flag in turn; finally set
`self._exploration_step` if `self.episode_complete`.  `results` lists the
worker results in the order the manager-end pipes deliver them. -/
def simpleCollectPar (s : MgrState) (results : List LocalResult) :
    MgrState × List (Nat × List Nat) × List Tracker × Bool :=
  let sent := s.explorationStep
  let es1 := if s.explorationStep then false else s.explorationStep
  let agg := results.foldl
    (fun a r => (mergeInfo a.1 r.rolloutInfo, a.2.1 ++ [r.tracker], r.episodeEnd))
    (([] : List (Nat × List Nat)), ([] : List Tracker), s.episodeComplete)
  let es2 := if agg.2.2 then true else es1
  (⟨es2, agg.2.2⟩, agg.1, agg.2.1, sent)

/-- The `eval_parallelism > 1` branch of `SimpleRolloutManager.evaluate`
(rollout_manager.py lines 243-249): `chosen` is the list returned by
`choices(self._manager_ends, k=self._eval_parallelism)` (sampling with
replacement), each chosen connection is sent one test request, and then
the manager runs `for conn in self._manager_ends: result = conn.recv()` —
one blocking receive from EVERY pool connection.  A worker replies once
per request it received, so `conn.recv()` on a worker that was sent no
request never returns; `none` models the manager blocking forever in that
case.  `trackerOf w` is the tracker worker `w` replies with. -/
def simpleEvaluatePar (parallelism : Nat) (chosen : List Nat)
    (trackerOf : Nat → Tracker) : Option (List Tracker) :=
  (List.range parallelism).mapM
    (fun w => if 1 ≤ chosen.count w then some (trackerOf w) else none)

/-- An evaluation reply as read by `DistributedRolloutManager.evaluate`
(fields `result["type"]`, `result["episode"]`, `result["tracker"]`). -/
structure EvalReply where
  tag : MsgTagT
  episode : Int
  tracker : Tracker
deriving DecidableEq, Repr

/-- The receive loop of `DistributedRolloutManager.evaluate`
(rollout_manager.py lines 445-459): `for _ in range(len(workers))`:
receive a reply (blocking — `none` models the stream running dry mid-loop);
a reply whose tag is not `TEST_DONE` or whose episode does not match is
logged and skipped with `continue` — still consuming one loop iteration —
otherwise its tracker is appended, `num_finishes` is bumped (the inner
`if result["episode"] == ep` re-check is always true at that point), and
the loop breaks once `num_finishes` equals `num_eval_workers`. -/
def distEvalLoop (ep : Int) (numEval : Nat) :
    Nat → List EvalReply → List Tracker → Nat → Option (List Tracker)
  | 0, _, trackers, _ => some trackers
  | _ + 1, [], _, _ => none
  | n + 1, m :: rest, trackers, numFinishes =>
    if m.tag ≠ MsgTagT.testDone ∨ m.episode ≠ ep then
      distEvalLoop ep numEval n rest trackers numFinishes
    else
      let trackers1 := trackers ++ [m.tracker]
      if m.episode = ep then
        if numFinishes + 1 = numEval then some trackers1
        else distEvalLoop ep numEval n rest trackers1 (numFinishes + 1)
      else distEvalLoop ep numEval n rest trackers1 numFinishes

/-- `DistributedRolloutManager.evaluate` (rollout_manager.py lines
428-464): `chosen` is `choices(self._endpoint.workers,
k=self._num_eval_workers)`; the evaluation request is sent to every known
worker id, and then the receive loop runs for at most `len(chosen)`
iterations.  Returns the list of worker ids the request was sent to and
the collected trackers (`none` when the loop blocks). -/
def distEvaluate (ep : Int) (numWorkers : Nat) (chosen : List Nat)
    (stream : List EvalReply) : List Nat × Option (List Tracker) :=
  (List.range numWorkers, distEvalLoop ep chosen.length chosen.length stream [] 0)

/-- The eager validation in `SimpleRolloutManager.__init__`
(rollout_manager.py lines 108-115), performed before any worker process is
spawned: raise for `num_steps == 0 or num_steps < -1`, then for
`parallelism < 1`, then for `eval_parallelism > parallelism`. -/
def simpleInitRaises (numSteps parallelism evalParallelism : Int) : Bool :=
  if numSteps = 0 ∨ numSteps < -1 then true
  else if parallelism < 1 then true
  else if evalParallelism > parallelism then true
  else false

/-- The eager validation in `DistributedRolloutManager.__init__`
(rollout_manager.py lines 312-313): raise only for
`num_eval_workers > num_workers`; the step budget is not validated (the
`numSteps` argument is accepted unchecked). -/
def distInitRaises (_numSteps numWorkers numEvalWorkers : Int) : Bool :=
  if numEvalWorkers > numWorkers then true else false

/-- The conditions under which a received reply actually contributes to
the collection round: the three validity checks of
`_handle_worker_result` plus a non-empty `rollout_info` (the Python guard
`if info_by_policy:` is false on an empty dictionary). -/
def contributesB (maxLag : Int) (ep segment version : Int) (msg : WorkerReply) : Bool :=
  msg.tag = MsgTagT.sampleDone && decide (version - msg.version ≤ maxLag)
    && decide (msg.episode = ep) && decide (msg.segment = segment)
    && !msg.rolloutInfo.isEmpty

/-- Validity of an evaluation reply: tag `TEST_DONE` and matching episode
(rollout_manager.py line 447). -/
def evalValidB (ep : Int) (m : EvalReply) : Bool :=
  m.tag = MsgTagT.testDone && decide (m.episode = ep)

/-- A queue with records at ticks 0, 2 and 5 (opaque payloads 10/20/30,
11/21/31, 12/22/32), the spec's example flush fixture. -/
def exampleCache : List TransitionRecord :=
  [⟨10, 20, 30, 0⟩, ⟨11, 21, 31, 2⟩, ⟨12, 22, 32, 5⟩]

/-- A trivial reward oracle for concrete evaluations. -/
def zeroReward : Nat → Int → Int := fun _ _ => 0

/-- A trivial one-step oracle for concrete evaluations: every simulation
step terminates immediately. -/
def oracle0 : Oracles :=
  { resetLearn := 0, resetTest := 0, step := fun _ _ => (0, 0, true),
    tick := fun _ => 0, getState := fun _ _ => [], act := fun _ _ => 0,
    getEnvActions := fun _ _ _ => 0, getReward := fun _ _ _ => 0, postStep := none }

/-! ### Lemmas about the per-agent flush loop -/

/-- The flush condition is antitone in the record tick: if a later record
qualifies, so does any record with a smaller-or-equal tick. -/
lemma flushCond_of_le {terminal : Bool} {now delay : Int} {a b : Int}
    (hab : a ≤ b) (h : flushCond terminal now delay b = true) :
    flushCond terminal now delay a = true := by
  simp only [flushCond, Bool.or_eq_true, decide_eq_true_eq] at h ⊢
  rcases h with h | h
  · exact Or.inl h
  · exact Or.inr (by omega)

/-- The queue left by the flush loop is the `dropWhile` of the flush
condition. -/
lemma flushAgent_remaining (terminal : Bool) (now delay : Int)
    (gr : Nat → Int → Int) (postStep : Option PostStepFn)
    (ps : Option (List (Nat × Nat))) :
    ∀ (cache : List TransitionRecord) (tr : Tracker),
      (flushAgent terminal now delay gr postStep ps cache tr).remaining
        = cache.dropWhile (fun r => flushCond terminal now delay r.tick) := by
  intro cache
  induction cache with
  | nil => intro tr; rfl
  | cons r rest ih =>
    intro tr
    by_cases h : flushCond terminal now delay r.tick
    · simp [flushAgent, h, List.dropWhile_cons, ih]
    · simp [flushAgent, h, List.dropWhile_cons]

/-- The flush loop pops exactly the `takeWhile` prefix of the flush
condition. -/
lemma flushAgent_completed_length (terminal : Bool) (now delay : Int)
    (gr : Nat → Int → Int) (postStep : Option PostStepFn)
    (ps : Option (List (Nat × Nat))) :
    ∀ (cache : List TransitionRecord) (tr : Tracker),
      (flushAgent terminal now delay gr postStep ps cache tr).completed.length
        = (cache.takeWhile (fun r => flushCond terminal now delay r.tick)).length := by
  intro cache
  induction cache with
  | nil => intro tr; rfl
  | cons r rest ih =>
    intro tr
    by_cases h : flushCond terminal now delay r.tick
    · simp [flushAgent, h, List.takeWhile_cons, ih]
    · simp [flushAgent, h, List.takeWhile_cons]

/-- On a tick-sorted queue, `takeWhile` of the (antitone) flush condition
coincides with `filter`: a record is in the popped prefix if and only if
it satisfies the flush condition. -/
lemma takeWhile_eq_filter_of_sorted (terminal : Bool) (now delay : Int) :
    ∀ (cache : List TransitionRecord),
      List.Pairwise (fun a b => a.tick ≤ b.tick) cache →
      cache.takeWhile (fun r => flushCond terminal now delay r.tick)
        = cache.filter (fun r => flushCond terminal now delay r.tick) := by
  intro cache
  induction cache with
  | nil => intro _; rfl
  | cons r rest ih =>
    intro hp
    rcases List.pairwise_cons.mp hp with ⟨hr, hrest⟩
    by_cases h : flushCond terminal now delay r.tick
    · simp [List.takeWhile_cons, List.filter_cons, h, ih hrest]
    · have hnone : rest.filter (fun x => flushCond terminal now delay x.tick) = [] := by
        refine List.filter_eq_nil_iff.mpr ?_
        intro b hb hcb
        exact h (flushCond_of_le (hr b hb) hcb)
      simp [List.takeWhile_cons, List.filter_cons, h, hnone]

/-- Positional description of each popped record's completion: the `k`-th
completed transition comes from the `k`-th queue record, with next-state
computed from the queue left after that pop (`cache.drop (k+1)`). -/
lemma flushAgent_completed_get (terminal : Bool) (now delay : Int)
    (gr : Nat → Int → Int) (postStep : Option PostStepFn)
    (ps : Option (List (Nat × Nat))) :
    ∀ (cache : List TransitionRecord) (tr : Tracker) (k : Nat)
      (hk2 : k < cache.length),
      k < (flushAgent terminal now delay gr postStep ps cache tr).completed.length →
      (flushAgent terminal now delay gr postStep ps cache tr).completed.get? k
        = some
          { state := (cache.get ⟨k, hk2⟩).state,
            action := (cache.get ⟨k, hk2⟩).action,
            reward := gr (cache.get ⟨k, hk2⟩).envActions (cache.get ⟨k, hk2⟩).tick,
            next := nextStateAfter ps (cache.drop (k + 1)),
            terminal := (cache.drop (k + 1)).isEmpty && terminal } := by
  intro cache
  induction cache with
  | nil => intro tr k hk2 _; exact absurd hk2 (by simp)
  | cons r rest ih =>
    intro tr k hk2 hk
    by_cases h : flushCond terminal now delay r.tick
    · match k with
      | 0 => simp [flushAgent, h, nextStateAfter]
      | k + 1 =>
        have hk2' : k < rest.length := Nat.lt_of_succ_lt_succ hk2
        simp only [flushAgent, h, if_true, List.length_cons] at hk
        simp only [flushAgent, h, if_true, List.get?_cons_succ, List.get_cons_succ,
          List.drop_succ_cons]
        exact ih _ k hk2' (Nat.lt_of_succ_lt_succ hk)
    · exact absurd hk (by simp [flushAgent, h])

/-! ### Claim theorems C1 and C4 -/

/-- Claim C1: in `EnvSampler.sample`, a cached transition record of a
tick-sorted per-agent queue is popped and flushed if and only if the
episode is terminal or the current tick minus the record tick is at least
`reward_eval_delay` (the popped records are the `takeWhile` prefix, which
on a sorted queue equals the `filter` of the flush condition), and the
flushed records are non-decreasing in originating tick. -/
theorem flush_iff_delay_and_tick_order (terminal : Bool) (now delay : Int)
    (gr : Nat → Int → Int) (postStep : Option PostStepFn)
    (ps : Option (List (Nat × Nat))) (cache : List TransitionRecord) (tr : Tracker)
    (hsorted : List.Pairwise (fun a b => a.tick ≤ b.tick) cache) :
    (flushAgent terminal now delay gr postStep ps cache tr).completed.length
        = (cache.takeWhile (fun r => flushCond terminal now delay r.tick)).length
    ∧ (flushAgent terminal now delay gr postStep ps cache tr).remaining
        = cache.dropWhile (fun r => flushCond terminal now delay r.tick)
    ∧ cache.takeWhile (fun r => flushCond terminal now delay r.tick)
        = cache.filter (fun r => flushCond terminal now delay r.tick)
    ∧ List.Pairwise (fun a b => a.tick ≤ b.tick)
        (cache.takeWhile (fun r => flushCond terminal now delay r.tick)) := by
  refine ⟨flushAgent_completed_length terminal now delay gr postStep ps cache tr,
    flushAgent_remaining terminal now delay gr postStep ps cache tr,
    takeWhile_eq_filter_of_sorted terminal now delay cache hsorted, ?_⟩
  rw [takeWhile_eq_filter_of_sorted terminal now delay cache hsorted]
  exact hsorted.sublist (List.filter_sublist cache)

/-- Witness for C1 on the spec's example: a queue at ticks 0, 2, 5 with
delay 3; at tick 4 exactly the tick-0 record flushes, and at tick 6 the
tick-2 record flushes next. -/
theorem flush_iff_delay_and_tick_order_witness :
    List.Pairwise (fun a b => a.tick ≤ b.tick) exampleCache
    ∧ ((flushAgent false 4 3 zeroReward none none exampleCache []).completed.length
          = (exampleCache.takeWhile (fun r => flushCond false 4 3 r.tick)).length
        ∧ (flushAgent false 4 3 zeroReward none none exampleCache []).remaining
          = exampleCache.dropWhile (fun r => flushCond false 4 3 r.tick)
        ∧ exampleCache.takeWhile (fun r => flushCond false 4 3 r.tick)
          = exampleCache.filter (fun r => flushCond false 4 3 r.tick)
        ∧ List.Pairwise (fun a b => a.tick ≤ b.tick)
            (exampleCache.takeWhile (fun r => flushCond false 4 3 r.tick)))
    ∧ (flushAgent false 4 3 zeroReward none none exampleCache []).completed.length = 1
    ∧ (flushAgent false 4 3 zeroReward none none exampleCache []).remaining
        = [⟨11, 21, 31, 2⟩, ⟨12, 22, 32, 5⟩]
    ∧ (flushAgent false 6 3 zeroReward none none
        (flushAgent false 4 3 zeroReward none none exampleCache []).remaining []).completed.length = 1
    ∧ (flushAgent false 6 3 zeroReward none none
        (flushAgent false 4 3 zeroReward none none exampleCache []).remaining []).completed.get? 0
        = some ⟨11, 21, 0, NextStateVal.fromRecord 12, false⟩
    ∧ (flushAgent false 6 3 zeroReward none none
        (flushAgent false 4 3 zeroReward none none exampleCache []).remaining []).remaining
        = [⟨12, 22, 32, 5⟩] :=
  ⟨by decide,
   flush_iff_delay_and_tick_order false 4 3 zeroReward none none exampleCache [] (by decide),
   by decide, by decide, by decide, by decide, by decide⟩

/-- Claim C4: each transition flushed by `EnvSampler.sample` is recorded
with next-state taken from the new front of the queue after the pop when
the queue is non-empty, otherwise from the latest pending environment
state, and with terminal flag true exactly when the queue is empty after
the pop and the episode is terminal. -/
theorem flushed_next_state_and_terminal (terminal : Bool) (now delay : Int)
    (gr : Nat → Int → Int) (postStep : Option PostStepFn)
    (ps : Option (List (Nat × Nat))) (cache : List TransitionRecord)
    (tr : Tracker) (k : Nat) (hk2 : k < cache.length)
    (hk : k < (flushAgent terminal now delay gr postStep ps cache tr).completed.length) :
    (flushAgent terminal now delay gr postStep ps cache tr).completed.get? k
      = some
        { state := (cache.get ⟨k, hk2⟩).state,
          action := (cache.get ⟨k, hk2⟩).action,
          reward := gr (cache.get ⟨k, hk2⟩).envActions (cache.get ⟨k, hk2⟩).tick,
          next := nextStateAfter ps (cache.drop (k + 1)),
          terminal := (cache.drop (k + 1)).isEmpty && terminal } :=
  flushAgent_completed_get terminal now delay gr postStep ps cache tr k hk2 hk

/-- Witness for C4: on the example queue with the episode terminal at tick
6, all three records flush; the middle record's next-state is the new
front and the last record is flagged terminal with the pending environment
state as next-state. -/
theorem flushed_next_state_and_terminal_witness :
    1 < exampleCache.length
    ∧ 1 < (flushAgent true 6 3 zeroReward none none exampleCache []).completed.length
    ∧ (flushAgent true 6 3 zeroReward none none exampleCache []).completed.get? 1
        = some ⟨11, 21, 0, NextStateVal.fromRecord 12, false⟩
    ∧ (flushAgent true 6 3 zeroReward none none exampleCache []).completed.get? 2
        = some ⟨12, 22, 0, NextStateVal.fromEnv none, true⟩ :=
  ⟨by decide, by decide,
   by
    have h := flushed_next_state_and_terminal true 6 3 zeroReward none none
      exampleCache [] 1 (by decide) (by decide)
    simpa using h,
   by decide⟩

/-! ### Lemmas about reply handling in the distributed collect -/

/-- Processing one reply bumps `num_finishes` by one when the reply
contributes and leaves it unchanged otherwise. -/
lemma collectStep_numFinishes (maxLag : Int) (ep segment version : Int)
    (acc : CollectAcc) (msg : WorkerReply) :
    (collectStep maxLag ep segment version acc msg).numFinishes
      = acc.numFinishes + (if contributesB maxLag ep segment version msg then 1 else 0) := by
  by_cases h1 : msg.tag = MsgTagT.sampleDone
  · by_cases h2 : version - msg.version > maxLag
    · simp [collectStep, handleWorkerResult, contributesB, h1, h2, not_le.mpr h2]
    · by_cases h3 : msg.episode = ep ∧ msg.segment = segment
      · cases hinfo : msg.rolloutInfo with
        | nil => simp [collectStep, handleWorkerResult, contributesB, h1, h2, h3, hinfo,
            not_lt.mp h2]
        | cons a l =>
          simp [collectStep, handleWorkerResult, contributesB, h1, h2, h3.1, h3.2, hinfo,
            not_lt.mp h2]
      · rcases Decidable.not_and_iff_or_not.mp h3 with h | h <;>
          simp [collectStep, handleWorkerResult, contributesB, h1, h2, h3, h, not_lt.mp h2]
  · simp [collectStep, handleWorkerResult, contributesB, h1]

/-- A reply does not change the aggregation buffers when it does not
contribute. -/
lemma collectStep_not_contributes (maxLag : Int) (ep segment version : Int)
    (acc : CollectAcc) (msg : WorkerReply)
    (h : contributesB maxLag ep segment version msg = false) :
    (collectStep maxLag ep segment version acc msg).numFinishes = acc.numFinishes
    ∧ (collectStep maxLag ep segment version acc msg).trackers = acc.trackers
    ∧ (collectStep maxLag ep segment version acc msg).infoByPolicy = acc.infoByPolicy := by
  by_cases h1 : msg.tag = MsgTagT.sampleDone
  · by_cases h2 : version - msg.version > maxLag
    · simp [collectStep, handleWorkerResult, h1, h2]
    · by_cases h3 : msg.episode = ep ∧ msg.segment = segment
      · cases hinfo : msg.rolloutInfo with
        | nil => simp [collectStep, handleWorkerResult, h1, h2, h3, hinfo]
        | cons a l =>
          exfalso
          simp [contributesB, h1, h3.1, h3.2, hinfo, not_lt.mp h2] at h
      · rcases Decidable.not_and_iff_or_not.mp h3 with h4 | h4 <;>
          simp [collectStep, handleWorkerResult, h1, h2, h3, h4]
  · simp [collectStep, handleWorkerResult, h1]

/-- A contributing reply bumps `num_finishes`, appends its tracker and
merges its rollout info. -/
lemma collectStep_contributes (maxLag : Int) (ep segment version : Int)
    (acc : CollectAcc) (msg : WorkerReply)
    (h : contributesB maxLag ep segment version msg = true) :
    (collectStep maxLag ep segment version acc msg).numFinishes = acc.numFinishes + 1
    ∧ (collectStep maxLag ep segment version acc msg).trackers = acc.trackers ++ [msg.tracker]
    ∧ (collectStep maxLag ep segment version acc msg).infoByPolicy
        = mergeInfo acc.infoByPolicy msg.rolloutInfo := by
  simp only [contributesB, Bool.and_eq_true, decide_eq_true_eq, Bool.not_eq_true'] at h
  obtain ⟨⟨⟨⟨h1, h2⟩, h3⟩, h4⟩, h5⟩ := h
  have h2' : ¬version - msg.version > maxLag := not_lt.mpr h2
  cases hinfo : msg.rolloutInfo with
  | nil => simp [hinfo] at h5
  | cons a l => simp [collectStep, handleWorkerResult, h1, h2', h3, h4, hinfo]

/-! ### Claim theorem C2 -/

/-- Claim C2, corrected: a received reply contributes to the result of
`DistributedRolloutManager.collect` — bumping `num_finishes` toward the
quorum and appending its rollout info and tracker — if and only if its tag
is `SAMPLE_DONE`, it is at most `max_lag` versions stale, its episode and
segment match the request, AND its rollout info is non-empty; any other
reply leaves the aggregation buffers unchanged. -/
theorem reply_contributes_iff (maxLag : Int) (ep segment version : Int)
    (acc : CollectAcc) (msg : WorkerReply) :
    (((collectStep maxLag ep segment version acc msg).numFinishes = acc.numFinishes + 1
      ∧ (collectStep maxLag ep segment version acc msg).trackers
          = acc.trackers ++ [msg.tracker]
      ∧ (collectStep maxLag ep segment version acc msg).infoByPolicy
          = mergeInfo acc.infoByPolicy msg.rolloutInfo)
      ↔ (msg.tag = MsgTagT.sampleDone ∧ version - msg.version ≤ maxLag
          ∧ msg.episode = ep ∧ msg.segment = segment ∧ msg.rolloutInfo ≠ []))
    ∧ (¬(msg.tag = MsgTagT.sampleDone ∧ version - msg.version ≤ maxLag
          ∧ msg.episode = ep ∧ msg.segment = segment ∧ msg.rolloutInfo ≠ []) →
        (collectStep maxLag ep segment version acc msg).numFinishes = acc.numFinishes
        ∧ (collectStep maxLag ep segment version acc msg).trackers = acc.trackers
        ∧ (collectStep maxLag ep segment version acc msg).infoByPolicy = acc.infoByPolicy) := by
  have hchar : contributesB maxLag ep segment version msg = true
      ↔ (msg.tag = MsgTagT.sampleDone ∧ version - msg.version ≤ maxLag
          ∧ msg.episode = ep ∧ msg.segment = segment ∧ msg.rolloutInfo ≠ []) := by
    cases hinfo : msg.rolloutInfo with
    | nil => simp [contributesB, hinfo]
    | cons a l => simp [contributesB, hinfo, and_assoc]
  constructor
  · constructor
    · intro hcontrib
      by_cases hc : contributesB maxLag ep segment version msg
      · exact hchar.mp hc
      · have := (collectStep_not_contributes maxLag ep segment version acc msg
          (Bool.not_eq_true _ ▸ (by simpa using hc))).1
        omega
    · intro hcond
      exact collectStep_contributes maxLag ep segment version acc msg (hchar.mpr hcond)
  · intro hcond
    refine collectStep_not_contributes maxLag ep segment version acc msg ?_
    by_cases hc : contributesB maxLag ep segment version msg
    · exact absurd (hchar.mp hc) hcond
    · simpa using hc

/-- Counterexample for C2 as frozen: a reply with the `SAMPLE_DONE` tag, a
fresh version and matching episode and segment, but an empty rollout-info
dictionary, does not count toward the quorum and its tracker is not
appended (Python: `if info_by_policy:` is false on an empty dict). -/
theorem reply_contributes_iff_counterexample :
    (WorkerReply.mk MsgTagT.sampleDone 5 1 2 [] [(7, 7)] false).tag = MsgTagT.sampleDone
    ∧ (5 : Int) - (WorkerReply.mk MsgTagT.sampleDone 5 1 2 [] [(7, 7)] false).version ≤ 0
    ∧ (WorkerReply.mk MsgTagT.sampleDone 5 1 2 [] [(7, 7)] false).episode = 1
    ∧ (WorkerReply.mk MsgTagT.sampleDone 5 1 2 [] [(7, 7)] false).segment = 2
    ∧ (collectStep 0 1 2 5 ⟨[], [], 0, false⟩
        (WorkerReply.mk MsgTagT.sampleDone 5 1 2 [] [(7, 7)] false)).numFinishes = 0
    ∧ (collectStep 0 1 2 5 ⟨[], [], 0, false⟩
        (WorkerReply.mk MsgTagT.sampleDone 5 1 2 [] [(7, 7)] false)).trackers = [] := by
  decide

/-- Witness for C2: a fresh matching reply with non-empty rollout info is
counted, its tracker appended and its info merged. -/
theorem reply_contributes_iff_witness :
    (collectStep 0 1 2 5 ⟨[], [], 0, false⟩
        (WorkerReply.mk MsgTagT.sampleDone 5 1 2 [(3, 4)] [(7, 7)] true)).numFinishes
        = (CollectAcc.mk [] [] 0 false).numFinishes + 1
    ∧ (collectStep 0 1 2 5 ⟨[], [], 0, false⟩
        (WorkerReply.mk MsgTagT.sampleDone 5 1 2 [(3, 4)] [(7, 7)] true)).trackers
        = (CollectAcc.mk [] [] 0 false).trackers ++ [[(7, 7)]]
    ∧ (collectStep 0 1 2 5 ⟨[], [], 0, false⟩
        (WorkerReply.mk MsgTagT.sampleDone 5 1 2 [(3, 4)] [(7, 7)] true)).infoByPolicy
        = mergeInfo (CollectAcc.mk [] [] 0 false).infoByPolicy [(3, 4)] :=
  (reply_contributes_iff 0 1 2 5 ⟨[], [], 0, false⟩
    (WorkerReply.mk MsgTagT.sampleDone 5 1 2 [(3, 4)] [(7, 7)] true)).1.mpr
    ⟨rfl, by decide, rfl, rfl, by decide⟩

/-! ### Lemmas about the two receive phases of the distributed collect -/

/-- The quorum phase only completes with exactly `min_finished_workers`
accepted replies. -/
lemma quorumPhase_some (maxLag : Int) (ep segment version : Int) (minFinished : Nat) :
    ∀ (stream : List WorkerReply) (acc acc1 : CollectAcc) (rest : List WorkerReply),
      quorumPhase maxLag ep segment version minFinished stream acc = some (acc1, rest) →
      acc1.numFinishes = minFinished := by
  intro stream
  induction stream with
  | nil => intro acc acc1 rest h; exact absurd h (by simp [quorumPhase])
  | cons m tail ih =>
    intro acc acc1 rest h
    by_cases hq : (collectStep maxLag ep segment version acc m).numFinishes = minFinished
    · simp only [quorumPhase, hq, if_true, Option.some.injEq] at h
      rw [Prod.mk.injEq] at h
      rw [← h.1]
      exact hq
    · simp only [quorumPhase, hq, if_false] at h
      exact ih _ _ _ h

/-- If the stream of replies the blocking receive can ever deliver holds
fewer contributing replies than still needed, the quorum phase blocks
forever. -/
lemma quorumPhase_none (maxLag : Int) (ep segment version : Int) (minFinished : Nat) :
    ∀ (stream : List WorkerReply) (acc : CollectAcc),
      acc.numFinishes + stream.countP (contributesB maxLag ep segment version) < minFinished →
      quorumPhase maxLag ep segment version minFinished stream acc = none := by
  intro stream
  induction stream with
  | nil => intro acc _; rfl
  | cons m tail ih =>
    intro acc hlt
    have hstep := collectStep_numFinishes maxLag ep segment version acc m
    have hcount : ((m :: tail).countP (contributesB maxLag ep segment version))
        = (if contributesB maxLag ep segment version m then 1 else 0)
          + tail.countP (contributesB maxLag ep segment version) := by
      rw [List.countP_cons]; omega
    have hne : (collectStep maxLag ep segment version acc m).numFinishes ≠ minFinished := by
      omega
    simp only [quorumPhase, hne, if_false]
    exact ih _ (by omega)

/-- The extra phase performs at most `max_extra_recv_tries` receive
attempts beyond those already used. -/
lemma extraPhase_used_le (maxLag : Int) (ep segment version : Int) (numWorkers : Nat)
    (events : Nat → Option WorkerReply) :
    ∀ (tries used : Nat) (acc : CollectAcc),
      (extraPhase maxLag ep segment version numWorkers events tries used acc).2 ≤ used + tries := by
  intro tries
  induction tries with
  | zero => intro used acc; simp [extraPhase]
  | succ t ih =>
    intro used acc
    cases hev : events used with
    | none =>
      simp only [extraPhase, hev]
      have := ih (used + 1) acc
      omega
    | some m =>
      by_cases hq : (collectStep maxLag ep segment version acc m).numFinishes = numWorkers
      · simp only [extraPhase, hev, hq, if_true]; omega
      · simp only [extraPhase, hev, hq, if_false]
        have := ih (used + 1) (collectStep maxLag ep segment version acc m)
        omega

/-- The extra phase stops before exhausting its try budget only when valid
replies from all `num_workers` workers have been accepted. -/
lemma extraPhase_early (maxLag : Int) (ep segment version : Int) (numWorkers : Nat)
    (events : Nat → Option WorkerReply) :
    ∀ (tries used : Nat) (acc : CollectAcc),
      (extraPhase maxLag ep segment version numWorkers events tries used acc).2 < used + tries →
      (extraPhase maxLag ep segment version numWorkers events tries used acc).1.numFinishes
        = numWorkers := by
  intro tries
  induction tries with
  | zero => intro used acc h; simp [extraPhase] at h
  | succ t ih =>
    intro used acc h
    cases hev : events used with
    | none =>
      simp only [extraPhase, hev] at h ⊢
      exact ih (used + 1) acc (by omega)
    | some m =>
      by_cases hq : (collectStep maxLag ep segment version acc m).numFinishes = numWorkers
      · simp [extraPhase, hev, hq]
      · simp only [extraPhase, hev, hq, if_false] at h ⊢
        exact ih (used + 1) _ (by omega)

/-- A timed-out attempt consumes one try and changes nothing else: when
every attempt times out, the extra phase uses its whole budget and leaves
the accumulator untouched. -/
lemma extraPhase_all_timeout (maxLag : Int) (ep segment version : Int) (numWorkers : Nat)
    (events : Nat → Option WorkerReply) (hev : ∀ k, events k = none) :
    ∀ (tries used : Nat) (acc : CollectAcc),
      extraPhase maxLag ep segment version numWorkers events tries used acc = (acc, used + tries) := by
  intro tries
  induction tries with
  | zero => intro used acc; simp [extraPhase]
  | succ t ih =>
    intro used acc
    simp only [extraPhase, hev used]
    rw [ih (used + 1) acc]
    have harith : used + 1 + t = used + (t + 1) := by omega
    rw [harith]

/-! ### Claim theorem C3 -/

/-- Claim C3: `DistributedRolloutManager.collect` first receives with no
timeout until exactly `min_finished_workers` valid replies are accepted —
and never returns when the incoming stream holds fewer contributing
replies than that — and then performs at most `max_extra_recv_tries`
additional timed receives, a timed-out attempt consuming one try, stopping
that phase early only once `num_workers` replies have been accepted. -/
theorem quorum_then_bounded_extra_receives :
    (∀ (maxLag ep segment version : Int) (minFinished : Nat)
       (stream : List WorkerReply) (acc acc1 : CollectAcc) (rest : List WorkerReply),
       quorumPhase maxLag ep segment version minFinished stream acc = some (acc1, rest) →
       acc1.numFinishes = minFinished)
    ∧ (∀ (maxLag ep segment version : Int) (minFinished : Nat)
         (stream : List WorkerReply) (acc : CollectAcc),
         acc.numFinishes + stream.countP (contributesB maxLag ep segment version)
             < minFinished →
         quorumPhase maxLag ep segment version minFinished stream acc = none)
    ∧ (∀ (maxLag ep segment version : Int) (minFinished maxTries numWorkers : Nat)
         (s : MgrState) (stream : List WorkerReply) (events : Nat → Option WorkerReply),
         stream.countP (contributesB maxLag ep segment version) < minFinished →
         distCollect maxLag ep segment version minFinished maxTries numWorkers s stream events
           = none)
    ∧ (∀ (maxLag ep segment version : Int) (numWorkers : Nat)
         (events : Nat → Option WorkerReply) (tries : Nat) (acc : CollectAcc),
         (extraPhase maxLag ep segment version numWorkers events tries 0 acc).2 ≤ tries)
    ∧ (∀ (maxLag ep segment version : Int) (numWorkers : Nat)
         (events : Nat → Option WorkerReply) (tries : Nat) (acc : CollectAcc),
         (extraPhase maxLag ep segment version numWorkers events tries 0 acc).2 < tries →
         (extraPhase maxLag ep segment version numWorkers events tries 0 acc).1.numFinishes
           = numWorkers)
    ∧ (∀ (maxLag ep segment version : Int) (numWorkers : Nat)
         (events : Nat → Option WorkerReply) (tries : Nat) (acc : CollectAcc),
         (∀ k, events k = none) →
         extraPhase maxLag ep segment version numWorkers events tries 0 acc = (acc, tries)) := by
  refine ⟨fun a b c d e f g h i => quorumPhase_some a b c d e f g h i,
    fun a b c d e f g => quorumPhase_none a b c d e f g, ?_, ?_, ?_, ?_⟩
  · intro maxLag ep segment version minFinished maxTries numWorkers s stream events hins
    have h0 : quorumPhase maxLag ep segment version minFinished stream
        ⟨[], [], 0, s.episodeComplete⟩ = none :=
      quorumPhase_none maxLag ep segment version minFinished stream _ (by simpa using hins)
    simp [distCollect, h0]
  · intro a b c d e f g h
    simpa using extraPhase_used_le a b c d e f g 0 h
  · intro a b c d e f g h hlt
    exact extraPhase_early a b c d e f g 0 h (by simpa using hlt)
  · intro a b c d e f g h hev
    simpa using extraPhase_all_timeout a b c d e f hev g 0 h

/-- Witness for C3: with an empty reply stream and a quorum of one, the
quorum phase (and hence `collect`) blocks forever; with every timed
receive timing out, the extra phase burns its whole budget of three tries
and accepts nothing. -/
theorem quorum_then_bounded_extra_receives_witness :
    quorumPhase 0 1 2 3 1 [] ⟨[], [], 0, false⟩ = none
    ∧ distCollect 0 1 2 3 1 3 4 ⟨false, false⟩ [] (fun _ => none) = none
    ∧ extraPhase 0 1 2 3 4 (fun _ => none) 3 0 ⟨[], [], 0, false⟩ = (⟨[], [], 0, false⟩, 3)
    ∧ (extraPhase 0 1 2 3 4 (fun _ => none) 3 0 ⟨[], [], 0, false⟩).2 ≤ 3 :=
  ⟨quorum_then_bounded_extra_receives.2.1 0 1 2 3 1 [] ⟨[], [], 0, false⟩ (by decide),
   quorum_then_bounded_extra_receives.2.2.1 0 1 2 3 1 3 4 ⟨false, false⟩ [] (fun _ => none)
     (by decide),
   quorum_then_bounded_extra_receives.2.2.2.2.2 0 1 2 3 4 (fun _ => none) 3 ⟨[], [], 0, false⟩
     (fun _ => rfl),
   quorum_then_bounded_extra_receives.2.2.2.1 0 1 2 3 4 (fun _ => none) 3 ⟨[], [], 0, false⟩⟩

/-! ### Lemmas about the episode-complete flag -/

/-- Folding an overwriting flag update yields the last element's flag, or
the starting value on an empty list. -/
lemma foldl_flag_last : ∀ (results : List LocalResult) (b : Bool),
    results.foldl (fun _ r => r.episodeEnd) b
      = (results.getLast?.map (fun r => r.episodeEnd)).getD b := by
  intro results
  induction results with
  | nil => intro b; rfl
  | cons r rest ih =>
    intro b
    cases rest with
    | nil => simp [List.foldl_cons]
    | cons r2 rest2 =>
      rw [List.foldl_cons, ih, List.getLast?_cons_cons]
      obtain ⟨x, hx⟩ := Option.isSome_iff_exists.mp
        (List.getLast?_isSome.mpr (List.cons_ne_nil r2 rest2))
      rw [hx]
      rfl

/-- The episode-complete component of the local multi-worker aggregation
fold ignores the info and tracker components. -/
lemma parAgg_flag : ∀ (results : List LocalResult)
    (init : List (Nat × List Nat) × List Tracker × Bool),
    (results.foldl
      (fun a r => (mergeInfo a.1 r.rolloutInfo, a.2.1 ++ [r.tracker], r.episodeEnd))
      init).2.2
      = results.foldl (fun _ r => r.episodeEnd) init.2.2 := by
  intro results
  induction results with
  | nil => intro init; rfl
  | cons r rest ih => intro init; rw [List.foldl_cons, List.foldl_cons, ih]

/-- `collectStep` overwrites `episode_complete` with the reply's flag
exactly when the reply passes the tag, staleness and episode/segment
checks (regardless of whether its rollout info is empty). -/
lemma collectStep_episodeComplete (maxLag : Int) (ep segment version : Int)
    (acc : CollectAcc) (msg : WorkerReply) :
    (collectStep maxLag ep segment version acc msg).episodeComplete
      = if msg.tag = MsgTagT.sampleDone ∧ version - msg.version ≤ maxLag
            ∧ msg.episode = ep ∧ msg.segment = segment
        then msg.endOfEpisode else acc.episodeComplete := by
  by_cases h1 : msg.tag = MsgTagT.sampleDone
  · by_cases h2 : version - msg.version > maxLag
    · have h2' : ¬version - msg.version ≤ maxLag := not_le.mpr h2
      simp [collectStep, handleWorkerResult, h1, h2, h2']
    · by_cases h3 : msg.episode = ep ∧ msg.segment = segment
      · cases hinfo : msg.rolloutInfo with
        | nil =>
          simp [collectStep, handleWorkerResult, h1, h2, h3, h3.1, h3.2, hinfo, not_lt.mp h2]
        | cons a l =>
          simp [collectStep, handleWorkerResult, h1, h2, h3, h3.1, h3.2, hinfo, not_lt.mp h2]
      · simp [collectStep, handleWorkerResult, h1, h2, h3, not_lt.mp h2]
  · simp [collectStep, handleWorkerResult, h1]

/-! ### Claim theorem C5 -/

/-- Claim C5, corrected: `episode_complete` is false after `reset`; after a
collect call it equals the end-of-episode flag of the LAST contributing
result — the single sampler's result, the last pool worker received, or
the last remote reply that passed the tag/staleness/match checks — rather
than the disjunction over all contributing workers. -/
theorem episode_complete_overwrite_semantics :
    (∀ s : MgrState, (mgrReset s).episodeComplete = false)
    ∧ (∀ (s : MgrState) (result : LocalResult),
        (simpleCollectSingle s result).1.episodeComplete = result.episodeEnd)
    ∧ (∀ (s : MgrState) (results : List LocalResult),
        (simpleCollectPar s results).1.episodeComplete
          = (results.getLast?.map (fun r => r.episodeEnd)).getD s.episodeComplete)
    ∧ (∀ (maxLag ep segment version : Int) (acc : CollectAcc) (msg : WorkerReply),
        (collectStep maxLag ep segment version acc msg).episodeComplete
          = if msg.tag = MsgTagT.sampleDone ∧ version - msg.version ≤ maxLag
                ∧ msg.episode = ep ∧ msg.segment = segment
            then msg.endOfEpisode else acc.episodeComplete) := by
  refine ⟨fun s => rfl, fun s result => rfl, ?_, collectStep_episodeComplete⟩
  intro s results
  show (results.foldl
      (fun a r => (mergeInfo a.1 r.rolloutInfo, a.2.1 ++ [r.tracker], r.episodeEnd))
      ([], [], s.episodeComplete)).2.2
    = (results.getLast?.map (fun r => r.episodeEnd)).getD s.episodeComplete
  rw [parAgg_flag, foldl_flag_last]

/-- Counterexample for C5 as frozen: with two pool workers where the FIRST
reports end-of-episode and the second does not, `episode_complete` is
false after the collect call, although a contributing worker reported
end-of-episode. -/
theorem episode_complete_overwrite_counterexample :
    (simpleCollectPar ⟨false, false⟩
        [⟨[(1, 1)], [], true⟩, ⟨[(1, 2)], [], false⟩]).1.episodeComplete = false
    ∧ (simpleCollectPar ⟨false, false⟩
        [⟨[(1, 1)], [], true⟩, ⟨[(1, 2)], [], false⟩]).2.1 ≠ [] := by
  decide

/-! ### Claim theorem C6 -/

/-- Claim C6 names a real code defect: the `parallelism == 1` branch of
`SimpleRolloutManager.collect` never clears `self._exploration_step` after
sending it, so once an episode completes every later call samples with
`exploration_step=True` until the next completion — the schedule advances
on every segment, not once.  The multi-worker branch and the distributed
manager do clear the flag right after sending, which this theorem also
records: after an episode completes (first call, flag becomes set) and a
reset, two consecutive non-completing single-sampler calls BOTH send a set
exploration-step flag, while the multi-worker branch and the distributed
manager send it once and clear it. -/
theorem exploration_flag_never_cleared_in_single_branch :
    (simpleCollectSingle ⟨false, false⟩ ⟨[(1, 1)], [], true⟩).1 = ⟨true, true⟩
    ∧ (simpleCollectSingle (mgrReset ⟨true, true⟩) ⟨[(1, 1)], [], false⟩).2.2.2 = true
    ∧ (simpleCollectSingle (mgrReset ⟨true, true⟩) ⟨[(1, 1)], [], false⟩).1.explorationStep
        = true
    ∧ (simpleCollectSingle
        (simpleCollectSingle (mgrReset ⟨true, true⟩) ⟨[(1, 1)], [], false⟩).1
        ⟨[(1, 1)], [], false⟩).2.2.2 = true
    ∧ (simpleCollectPar (mgrReset ⟨true, true⟩) [⟨[(1, 1)], [], false⟩]).2.2.2 = true
    ∧ (simpleCollectPar (mgrReset ⟨true, true⟩) [⟨[(1, 1)], [], false⟩]).1.explorationStep
        = false
    ∧ distCollect 0 0 0 0 0 0 1 ⟨true, false⟩ [⟨MsgTagT.other, 0, 0, 0, [], [], false⟩]
        (fun _ => none)
        = some (⟨false, false⟩, ⟨[], [], 0, false⟩, true, 0) := by
  decide

/-! ### Claim theorem C7 -/

/-- Claim C7 names a real code defect: `SimpleRolloutManager.evaluate`
with `eval_parallelism > 1` sends a test request only to the chosen
(with-replacement) sample of workers, but then receives from EVERY pool
connection, so it blocks forever whenever some worker received no request.
With a pool of two workers and the sample picking worker 0 twice — a
legal output of `choices` with `k=2` — the receive loop blocks on worker
1; only when the sample happens to cover the whole pool does the call
return. -/
theorem evaluate_receives_from_all_workers :
    simpleEvaluatePar 2 [0, 0] (fun _ => []) = none
    ∧ [0, 0].length = 2
    ∧ (∀ w ∈ [0, 0], w < 2)
    ∧ simpleEvaluatePar 2 [0, 1] (fun _ => []) = some [[], []] := by
  decide

/-! ### Lemmas about the distributed evaluation receive loop -/

/-- Each loop iteration of the evaluation receive loop appends at most one
tracker, so at most `n` receives yield at most `n` new trackers. -/
lemma distEvalLoop_length_le (ep : Int) (numEval : Nat) :
    ∀ (n : Nat) (stream : List EvalReply) (trackers : List Tracker)
      (nf : Nat) (res : List Tracker),
      distEvalLoop ep numEval n stream trackers nf = some res →
      res.length ≤ trackers.length + n := by
  intro n
  induction n with
  | zero =>
    intro stream trackers nf res h
    simp only [distEvalLoop, Option.some.injEq] at h
    subst h
    simp
  | succ n ih =>
    intro stream trackers nf res h
    cases stream with
    | nil => exact absurd h (by simp [distEvalLoop])
    | cons m rest =>
      by_cases hv : m.tag ≠ MsgTagT.testDone ∨ m.episode ≠ ep
      · simp only [distEvalLoop, hv, if_true] at h
        have := ih rest trackers nf res h
        omega
      · simp only [distEvalLoop, hv, if_false] at h
        have hep : m.episode = ep := by
          rcases not_or.mp hv with ⟨_, h2⟩
          exact not_not.mp h2
        simp only [hep, if_true] at h
        by_cases hfin : nf + 1 = numEval
        · simp only [hfin, if_true, Option.some.injEq] at h
          subst h
          simp
        · simp only [hfin, if_false] at h
          have := ih rest (trackers ++ [m.tracker]) (nf + 1) res h
          simp at this
          omega

/-- The trackers collected by the evaluation receive loop extend the
initial ones exactly with a prefix of the trackers of the valid replies of
the stream, in arrival order: invalid replies are skipped (but consume an
iteration) and the loop may stop early once `num_eval_workers` valid
replies have arrived. -/
lemma distEvalLoop_valid_trackers (ep : Int) (numEval : Nat) :
    ∀ (n : Nat) (stream : List EvalReply) (trackers : List Tracker)
      (nf : Nat) (res : List Tracker),
      distEvalLoop ep numEval n stream trackers nf = some res →
      ∃ k, res = trackers
        ++ (((stream.filter (evalValidB ep)).map (fun m => m.tracker)).take k) := by
  intro n
  induction n with
  | zero =>
    intro stream trackers nf res h
    simp only [distEvalLoop, Option.some.injEq] at h
    exact ⟨0, by simp [← h]⟩
  | succ n ih =>
    intro stream trackers nf res h
    cases stream with
    | nil => exact absurd h (by simp [distEvalLoop])
    | cons m rest =>
      by_cases hv : m.tag ≠ MsgTagT.testDone ∨ m.episode ≠ ep
      · simp only [distEvalLoop, hv, if_true] at h
        have hfil : (m :: rest).filter (evalValidB ep) = rest.filter (evalValidB ep) := by
          have : evalValidB ep m = false := by
            rcases hv with h1 | h1
            · simp [evalValidB, h1]
            · simp [evalValidB, h1]
          simp [List.filter_cons, this]
        rw [hfil]
        exact ih rest trackers nf res h
      · rcases not_or.mp hv with ⟨h1, h2⟩
        have htag : m.tag = MsgTagT.testDone := not_not.mp h1
        have hep : m.episode = ep := not_not.mp h2
        have hfil : (m :: rest).filter (evalValidB ep)
            = m :: rest.filter (evalValidB ep) := by
          simp [List.filter_cons, evalValidB, htag, hep]
        simp only [distEvalLoop, hv, if_false] at h
        simp only [hep, if_true] at h
        by_cases hfin : nf + 1 = numEval
        · simp only [hfin, if_true, Option.some.injEq] at h
          refine ⟨1, ?_⟩
          rw [hfil, ← h]
          simp
        · simp only [hfin, if_false] at h
          obtain ⟨k, hk⟩ := ih rest (trackers ++ [m.tracker]) (nf + 1) res h
          refine ⟨k + 1, ?_⟩
          rw [hfil, hk]
          simp

/-! ### Claim theorem C8 -/

/-- Claim C8, corrected: `DistributedRolloutManager.evaluate` samples
`num_eval_workers` ids with replacement and sends the request to all known
workers, but its receive loop runs for at most `len(workers) =
num_eval_workers` iterations in total: an invalid reply is skipped with
`continue` yet still consumes an iteration, so invalid replies reduce the
number of valid trackers collected; the trackers returned are a prefix of
the valid replies' trackers, at most `num_eval_workers` of them, and the
loop blocks if the stream dries up mid-budget. -/
theorem evaluate_receive_budget (ep : Int) (numWorkers : Nat) (chosen : List Nat)
    (stream : List EvalReply) (res : List Tracker)
    (h : (distEvaluate ep numWorkers chosen stream).2 = some res) :
    (distEvaluate ep numWorkers chosen stream).1 = List.range numWorkers
    ∧ res.length ≤ chosen.length
    ∧ ∃ k, res = ((stream.filter (evalValidB ep)).map (fun m => m.tracker)).take k := by
  refine ⟨rfl, ?_, ?_⟩
  · have := distEvalLoop_length_le ep chosen.length chosen.length stream [] 0 res h
    simpa using this
  · obtain ⟨k, hk⟩ := distEvalLoop_valid_trackers ep chosen.length chosen.length stream [] 0 res h
    exact ⟨k, by simpa using hk⟩

/-- Counterexample for C8 as frozen: with `num_eval_workers = 1` and an
invalid first reply (wrong episode) followed by a valid one, the loop's
single iteration is consumed by the invalid reply and `evaluate` returns
no tracker at all — it does not keep receiving until one valid reply is
collected. -/
theorem evaluate_receive_budget_counterexample :
    (distEvaluate 0 3 [0] [⟨MsgTagT.testDone, 1, [(9, 9)]⟩, ⟨MsgTagT.testDone, 0, [(8, 8)]⟩]).2
        = some []
    ∧ evalValidB 0 ⟨MsgTagT.testDone, 0, [(8, 8)]⟩ = true := by
  decide

/-- Witness for C8: one valid reply with a budget of one attempt is
collected, within the receive bound and as a prefix of the valid
trackers. -/
theorem evaluate_receive_budget_witness :
    (distEvaluate 0 3 [0] [⟨MsgTagT.testDone, 0, [(8, 8)]⟩]).2 = some [[(8, 8)]]
    ∧ ((distEvaluate 0 3 [0] [⟨MsgTagT.testDone, 0, [(8, 8)]⟩]).1 = List.range 3
      ∧ ([[(8, 8)]] : List Tracker).length ≤ [0].length
      ∧ ∃ k, ([[(8, 8)]] : List Tracker)
          = (([⟨MsgTagT.testDone, 0, [(8, 8)]⟩].filter (evalValidB 0)).map
              (fun m => m.tracker)).take k) :=
  ⟨by decide, evaluate_receive_budget 0 3 [0] [⟨MsgTagT.testDone, 0, [(8, 8)]⟩]
    [[(8, 8)]] (by decide)⟩

/-! ### Claim theorem C9 -/

/-- Claim C9, corrected: the local-pool coordinator raises eagerly exactly
for an invalid step budget (`num_steps == 0 or num_steps < -1`),
`parallelism < 1`, or `eval_parallelism > parallelism`; the remote
coordinator validates only `num_eval_workers > num_workers` and accepts
any step budget unchecked. -/
theorem init_validation_exact :
    (∀ numSteps parallelism evalParallelism : Int,
      simpleInitRaises numSteps parallelism evalParallelism = true
        ↔ (numSteps = 0 ∨ numSteps < -1 ∨ parallelism < 1
            ∨ evalParallelism > parallelism))
    ∧ (∀ numSteps numWorkers numEvalWorkers : Int,
      distInitRaises numSteps numWorkers numEvalWorkers = true
        ↔ numEvalWorkers > numWorkers) := by
  constructor
  · intro a b c
    simp only [simpleInitRaises]
    split_ifs with h1 h2 h3 <;> simp <;> omega
  · intro a b c
    simp only [distInitRaises]
    split_ifs with h1 <;> simp [h1]

/-- Counterexample for C9 as frozen: a zero step budget raises in the
local-pool constructor but raises nothing in the remote constructor. -/
theorem init_validation_counterexample :
    distInitRaises 0 4 1 = false ∧ simpleInitRaises 0 4 1 = true := by
  decide

/-! ### Claim theorem C10 -/

/-- Claim C10: `EnvSampler.test` never modifies the sampling state — the
transition cache, the tracker, the step index and the terminal flag (and
likewise the pending state, event, and learn-environment fields) are
unchanged — and the tracker it returns is exactly the sampler's current
tracker field, which a freshly constructed sampler holds empty. -/
theorem test_preserves_sampling_state (o : Oracles) (fuel : Nat)
    (s s1 : SamplerState) (tr : Tracker) (h : test o fuel s = some (s1, tr)) :
    s1.cache = s.cache ∧ s1.tracker = s.tracker ∧ s1.stepIndex = s.stepIndex
    ∧ s1.terminal = s.terminal ∧ s1.state = s.state ∧ s1.event = s.event
    ∧ s1.learnEnv = s.learnEnv ∧ tr = s.tracker
    ∧ (initSampler o).tracker = [] := by
  unfold test at h
  cases htl : testLoop o fuel (o.step o.resetTest none).1 (o.step o.resetTest none).2.1
      (o.getState (o.step o.resetTest none).1 (o.step o.resetTest none).2.1) with
  | none => rw [htl] at h; exact absurd h (by simp)
  | some efinal =>
    rw [htl] at h
    simp only [Option.some.injEq, Prod.mk.injEq] at h
    obtain ⟨h1, h2⟩ := h
    subst h1
    subst h2
    exact ⟨rfl, rfl, rfl, rfl, rfl, rfl, rfl, rfl, rfl⟩

/-- Witness for C10: on the one-step oracle, `test` on a fresh sampler
returns the empty tracker and the sampler state is untouched. -/
theorem test_preserves_sampling_state_witness :
    test oracle0 1 (initSampler oracle0) = some (initSampler oracle0, [])
    ∧ ((initSampler oracle0).cache = (initSampler oracle0).cache
      ∧ (initSampler oracle0).tracker = (initSampler oracle0).tracker
      ∧ (initSampler oracle0).stepIndex = (initSampler oracle0).stepIndex
      ∧ (initSampler oracle0).terminal = (initSampler oracle0).terminal
      ∧ (initSampler oracle0).state = (initSampler oracle0).state
      ∧ (initSampler oracle0).event = (initSampler oracle0).event
      ∧ (initSampler oracle0).learnEnv = (initSampler oracle0).learnEnv
      ∧ ([] : Tracker) = (initSampler oracle0).tracker
      ∧ (initSampler oracle0).tracker = []) :=
  ⟨rfl, test_preserves_sampling_state oracle0 1 (initSampler oracle0)
    (initSampler oracle0) [] rfl⟩

end Maro

